import Mathlib

/-!
Shallow embedding of `src/utils/config.py` (configuration loader and
validator of the lightspeed service).

Parsed YAML data is modelled by `PyVal` (Python `None` is `PyVal.null`,
since `yaml.safe_load` turns YAML `null` into Python `None`).  Python
exceptions are modelled by `PyErr`; every constructor (`__init__`) of the
source becomes a function `…ofData : PyVal → Except PyErr …`.  Python
`dict` fields keyed by arbitrary (hashable) values are association lists
`List (PyVal × α)` with update-or-append assignment, mirroring insertion
order and last-one-wins overwrite.  The `pydantic.BaseModel` base class
deep-copies mutable field defaults per instance, so the class-level `{}`
defaults behave as per-instance fresh dictionaries and the constructors
are pure functions of their input.
-/

/-- A parsed YAML value as held by Python after `yaml.safe_load`. -/
inductive PyVal where
  | null
  | str (s : String)
  | int (n : Int)
  | bool (b : Bool)
  | list (xs : List PyVal)
  | dict (kvs : List (String × PyVal))

/-- A Python exception, distinguished by its class and message. -/
inductive PyErr where
  | exc (msg : String)
  | typeError (msg : String)
  | attrError (msg : String)
  | keyError (k : String)
  | yamlError (msg : String)
deriving DecidableEq

/-- Python `x is None`. -/
def PyVal.isNull : PyVal → Bool
  | .null => true
  | _ => false

/-- Python `==` between values that may serve as dict keys.  Containers
(lists/dicts) are unhashable, so the embedded code raises before ever
comparing them as keys; their comparison result is never observed and is
modelled as `false`. -/
def PyVal.beq : PyVal → PyVal → Bool
  | .null, .null => true
  | .str s, .str t => s == t
  | .int m, .int n => m == n
  | .bool x, .bool y => x == y
  | _, _ => false

instance : BEq PyVal := ⟨PyVal.beq⟩

/-- Python `v == "lit"` for a string literal, as in `self.type == "redis"`. -/
def PyVal.eqStr (v : PyVal) (lit : String) : Bool :=
  match v with
  | .str s => s == lit
  | _ => false

/-- Python's type name of a value, as used in error messages. -/
def PyVal.typeName : PyVal → String
  | .null => "NoneType"
  | .str _ => "str"
  | .int _ => "int"
  | .bool _ => "bool"
  | .list _ => "list"
  | .dict _ => "dict"

/-- The `dict.get(k, d)` on an already-known dictionary body. -/
def dGetD (kvs : List (String × PyVal)) (k : String) (d : PyVal) : PyVal :=
  match kvs.find? (fun kv => kv.1 == k) with
  | some kv => kv.2
  | Option.none => d

/-- The `dict.get(k, None)` on an already-known dictionary body. -/
def dGet (kvs : List (String × PyVal)) (k : String) : PyVal :=
  dGetD kvs k .null

/-- The `v.get(k, d)`: attribute error unless `v` is a dict. -/
def pyGetD (v : PyVal) (k : String) (d : PyVal) : Except PyErr PyVal :=
  match v with
  | .dict kvs => .ok (dGetD kvs k d)
  | w => .error (.attrError ("'" ++ w.typeName ++ "' object has no attribute 'get'"))

/-- The `v[k]` with a string key: the dict lookup, or Python's subscript errors. -/
def pySub (v : PyVal) (k : String) : Except PyErr PyVal :=
  match v with
  | .dict kvs =>
    match kvs.find? (fun kv => kv.1 == k) with
    | some kv => .ok kv.2
    | Option.none => .error (.keyError k)
  | .list _ => .error (.typeError "list indices must be integers or slices, not str")
  | .str _ => .error (.typeError "string indices must be integers")
  | w => .error (.typeError ("'" ++ w.typeName ++ "' object is not subscriptable"))

/-- The `len(v)`. -/
def pyLen (v : PyVal) : Except PyErr Nat :=
  match v with
  | .list xs => .ok xs.length
  | .dict kvs => .ok kvs.length
  | .str s => .ok s.length
  | w => .error (.typeError ("object of type '" ++ w.typeName ++ "' has no len()"))

/-- The `for x in v`: the sequence of iterated values. -/
def pyIter (v : PyVal) : Except PyErr (List PyVal) :=
  match v with
  | .list xs => .ok xs
  | .dict kvs => .ok (kvs.map (fun kv => .str kv.1))
  | .str s => .ok (s.data.map (fun c => .str c.toString))
  | w => .error (.typeError ("'" ++ w.typeName ++ "' object is not iterable"))

mutual

/-- Python `repr`, as used by `str` on containers. -/
def pyRepr : PyVal → String
  | .null => "None"
  | .str s => "'" ++ s ++ "'"
  | .int n => toString n
  | .bool b => if b then "True" else "False"
  | .list xs => "[" ++ String.intercalate ", " (pyReprList xs) ++ "]"
  | .dict kvs => "\x7b" ++ String.intercalate ", " (pyReprKvs kvs) ++ "\x7d"

/-- The `repr` of each element of a list. -/
def pyReprList : List PyVal → List String
  | [] => []
  | x :: xs => pyRepr x :: pyReprList xs

/-- The `repr` of each key/value pair of a dict body. -/
def pyReprKvs : List (String × PyVal) → List String
  | [] => []
  | (k, v) :: kvs => ("'" ++ k ++ "': " ++ pyRepr v) :: pyReprKvs kvs

end

/-- Python `str(v)`, as interpolated into f-string messages. -/
def pyStr : PyVal → String
  | .null => "None"
  | .str s => s
  | .int n => toString n
  | .bool b => if b then "True" else "False"
  | v => pyRepr v

/-- True when the value may be a dict key (Python hashability). -/
def PyVal.hashable : PyVal → Bool
  | .list _ => false
  | .dict _ => false
  | _ => true

/-- The `m[k] = v` on a dict keyed by Python values: update in place when the
key is present, append otherwise; unhashable keys raise. -/
def setItem {β : Type} (m : List (PyVal × β)) (k : PyVal) (v : β) :
    Except PyErr (List (PyVal × β)) :=
  if k.hashable then
    .ok (if m.any (fun kv => kv.1 == k) then
           m.map (fun kv => if kv.1 == k then (k, v) else kv)
         else m ++ [(k, v)])
  else .error (.typeError ("unhashable type: '" ++ k.typeName ++ "'"))

/-- The `m[k]` lookup on a dict keyed by Python values. -/
def aGet? {β : Type} (m : List (PyVal × β)) (k : PyVal) : Option β :=
  (m.find? (fun kv => kv.1 == k)).map (fun kv => kv.2)

/-! ## The configuration classes of `src/utils/config.py` -/

/-- The `class ModelConfig(BaseModel)`: fields with their class defaults. -/
structure ModelConfig where
  name : PyVal := .null
  url : PyVal := .null
  credential_path : PyVal := .null

/-- The `ModelConfig.__init__(self, data)`.  When `data` is `None` the raised
message `f"model config is missing for model {data['name']}"` first
subscripts `None`, so the f-string itself raises a `TypeError`. -/
def ModelConfig.ofData (data : PyVal) : Except PyErr ModelConfig :=
  if data.isNull then
    match pySub data "name" with
    | .error e => .error e
    | .ok n => .error (.exc ("model config is missing for model " ++ pyStr n))
  else do
    let name ← pyGetD data "name" .null
    let url ← pyGetD data "url" .null
    let credential_path ← pyGetD data "credential_path" .null
    .ok { name := name, url := url, credential_path := credential_path }

/-- The `class ProviderConfig(BaseModel)`: fields with their class defaults
(the `{}` default is deep-copied per instance by pydantic). -/
structure ProviderConfig where
  name : PyVal := .null
  url : PyVal := .null
  credential_path : PyVal := .null
  models : List (PyVal × ModelConfig) := []

/-- The `for m in data["models"]` loop of `ProviderConfig.__init__`. -/
def buildModels : List PyVal → List (PyVal × ModelConfig) →
    Except PyErr (List (PyVal × ModelConfig))
  | [], acc => .ok acc
  | m :: rest, acc => do
    let n ← pyGetD m "name" .null
    if n.isNull then
      .error (.exc "model name is missing")
    else do
      let model ← ModelConfig.ofData m
      let key ← pySub m "name"
      let acc2 ← setItem acc key model
      buildModels rest acc2

/-- The `ProviderConfig.__init__(self, data)`. -/
def ProviderConfig.ofData (data : PyVal) : Except PyErr ProviderConfig :=
  if data.isNull then .ok {}
  else do
    let name ← pyGetD data "name" .null
    let url ← pyGetD data "url" .null
    let credential_path ← pyGetD data "credential_path" .null
    let modelsVal ← pyGetD data "models" .null
    if modelsVal.isNull then do
      let pn ← pySub data "name"
      .error (.exc ("no models configured for provider " ++ pyStr pn))
    else do
      let mv ← pySub data "models"
      let l ← pyLen mv
      if l == 0 then do
        let pn ← pySub data "name"
        .error (.exc ("no models configured for provider " ++ pyStr pn))
      else do
        let mv2 ← pySub data "models"
        let items ← pyIter mv2
        let models ← buildModels items []
        .ok { name := name, url := url, credential_path := credential_path,
              models := models }

/-- The `class LLMConfig(BaseModel)`. -/
structure LLMConfig where
  providers : List (PyVal × ProviderConfig) := []

/-- The `for p in data` loop of `LLMConfig.__init__`. -/
def buildProviders : List PyVal → List (PyVal × ProviderConfig) →
    Except PyErr (List (PyVal × ProviderConfig))
  | [], acc => .ok acc
  | p :: rest, acc => do
    let n ← pyGetD p "name" .null
    if n.isNull then
      .error (.exc "provider name is missing")
    else do
      let provider ← ProviderConfig.ofData p
      let key ← pySub p "name"
      let acc2 ← setItem acc key provider
      buildProviders rest acc2

/-- The `LLMConfig.__init__(self, data)`. -/
def LLMConfig.ofData (data : PyVal) : Except PyErr LLMConfig :=
  if data.isNull then .error (.exc "no llm providers configured")
  else do
    let l ← pyLen data
    if l == 0 then .error (.exc "no llm providers configured")
    else do
      let items ← pyIter data
      let providers ← buildProviders items []
      .ok { providers := providers }

/-- The `class RedisConfig(BaseModel)`. -/
structure RedisConfig where
  host : PyVal := .null
  port : PyVal := .null
  max_memory : PyVal := .null
  max_memory_policy : PyVal := .null

/-- The `RedisConfig.__init__(self, data)`. -/
def RedisConfig.ofData (data : PyVal) : Except PyErr RedisConfig :=
  if data.isNull then .ok {}
  else do
    let host ← pyGetD data "host" .null
    let port ← pyGetD data "port" .null
    let max_memory ← pyGetD data "max_memory" .null
    let max_memory_policy ← pyGetD data "max_memory_policy" .null
    .ok { host := host, port := port, max_memory := max_memory,
          max_memory_policy := max_memory_policy }

/-- The `class MemoryConfig(BaseModel)`. -/
structure MemoryConfig where
  max_entries : PyVal := .null

/-- The `MemoryConfig.__init__(self, data)`. -/
def MemoryConfig.ofData (data : PyVal) : Except PyErr MemoryConfig :=
  if data.isNull then .ok {}
  else do
    let max_entries ← pyGetD data "max_entries" .null
    .ok { max_entries := max_entries }

/-- The `class ConversationCacheConfig(BaseModel)`. -/
structure ConversationCacheConfig where
  type : PyVal := .null
  redis : Option RedisConfig := Option.none
  memory : Option MemoryConfig := Option.none

/-- The `ConversationCacheConfig.__init__(self, data)`. -/
def ConversationCacheConfig.ofData (data : PyVal) :
    Except PyErr ConversationCacheConfig :=
  if data.isNull then .ok {}
  else do
    let t ← pyGetD data "type" .null
    if t.eqStr "redis" then do
      let r ← pyGetD data "redis" .null
      if r.isNull then .error (.exc "redis config is missing")
      else do
        let r2 ← pyGetD data "redis" .null
        let rc ← RedisConfig.ofData r2
        .ok { type := t, redis := some rc, memory := Option.none }
    else if t.eqStr "memory" then do
      let mm ← pyGetD data "memory" .null
      if mm.isNull then .error (.exc "memory config is missing")
      else do
        let mm2 ← pyGetD data "memory" .null
        let mc ← MemoryConfig.ofData mm2
        .ok { type := t, redis := Option.none, memory := some mc }
    else .ok { type := t, redis := Option.none, memory := Option.none }

/-- The `class LoggerConfig(BaseModel)`. -/
structure LoggerConfig where
  level : PyVal := .null
  filename : PyVal := .null

/-- The `LoggerConfig.__init__(self, data)`. -/
def LoggerConfig.ofData (data : PyVal) : Except PyErr LoggerConfig :=
  if data.isNull then .ok {}
  else do
    let level ← pyGetD data "level" .null
    let filename ← pyGetD data "filename" .null
    .ok { level := level, filename := filename }

/-- The `class OLSConfig(BaseModel)`: class defaults, including
`classifier_model = None`. -/
structure OLSConfig where
  enable_debug_ui : PyVal := .bool false
  default_model : PyVal := .null
  classifier_model : PyVal := .null
  conversation_cache : Option ConversationCacheConfig := Option.none
  logger_config : Option LoggerConfig := Option.none

/-- The `OLSConfig.__init__(self, data)`.  Note: the source assigns
`default_model`, `enable_debug_ui`, `conversation_cache` and
`logger_config` but never assigns `classifier_model`, which therefore
keeps its class default `None`. -/
def OLSConfig.ofData (data : PyVal) : Except PyErr OLSConfig :=
  if data.isNull then .ok {}
  else do
    let dm ← pyGetD data "default_model" .null
    let edu ← pyGetD data "enable_debug_ui" (.bool false)
    let ccRaw ← pyGetD data "conversation_cache" .null
    let cc ← ConversationCacheConfig.ofData ccRaw
    let lcRaw ← pyGetD data "logger_config" .null
    let lc ← LoggerConfig.ofData lcRaw
    .ok { enable_debug_ui := edu, default_model := dm,
          classifier_model := .null,
          conversation_cache := some cc, logger_config := some lc }

/-- The `class Config`: a plain class whose class attributes default to `None`. -/
structure Config where
  llm_config : Option LLMConfig := Option.none
  ols_config : Option OLSConfig := Option.none

/-- The `Config.__init__(self, data)`. -/
def Config.ofData (data : PyVal) : Except PyErr Config :=
  if data.isNull then .ok {}
  else do
    let lp ← pyGetD data "llm_providers" .null
    let llm ← LLMConfig.ofData lp
    let oc ← pyGetD data "ols_config" .null
    let ols ← OLSConfig.ofData oc
    .ok { llm_config := some llm, ols_config := some ols }

/-- The `Config.validate(self)`.  The `providers` field of a constructed
`LLMConfig` is a dict (never `None`), so the `providers is None` disjunct
of the source's second check is mirrored by the length test alone. -/
def Config.validate (c : Config) : Except PyErr Unit :=
  match c.llm_config with
  | Option.none => .error (.exc "no llm config found")
  | some llm =>
    if llm.providers.length == 0 then .error (.exc "no llm providers found")
    else match c.ols_config with
    | Option.none => .error (.exc "no ols config found")
    | some ols =>
      if ols.default_model.isNull then .error (.exc "default model is not set")
      else if ols.classifier_model.isNull then
        .error (.exc "classifier model is not set")
      else if ols.conversation_cache.isNone then
        .error (.exc "conversation cache is not set")
      else if ols.logger_config.isNone then
        .error (.exc "logger config is not set")
      else .ok ()

/-- The observable outcome of `load_config`: either the returned
configuration together with everything printed to standard output, or a
process exit with its status and the printed lines. -/
inductive LoadResult where
  | ok (c : Config) (stdout : List String)
  | exit (code : Nat) (stdout : List String)

/-- Python `str(e)` of an exception, as interpolated by `load_config`. -/
def PyErr.message : PyErr → String
  | .exc m => m
  | .typeError m => m
  | .attrError m => m
  | .keyError k => "'" ++ k ++ "'"
  | .yamlError m => m

/-- The line printed by `print(traceback.format_exc())`. -/
def tracebackOf (e : PyErr) : String :=
  "Traceback (most recent call last): " ++ e.message

/-- The `load_config(config_file)`.  Modelled from the spec in one respect:
the argument is "a readable source identifying a YAML document (e.g.,
file path/handle)" whose `.name` attribute (read only in the failure
branch) is the string `fileName`; `parsed` is the outcome of
`open(config_file, "r")` followed by `yaml.safe_load(f)`, either the
parsed document or the raised error.  `exit(1)` raises `SystemExit`,
which the `except Exception` clause does not catch, so the process
terminates with status 1 after the two `print` calls. -/
def load_config (fileName : String) (parsed : Except PyErr PyVal) : LoadResult :=
  match parsed.bind Config.ofData with
  | .ok c => .ok c []
  | .error e =>
    .exit 1 ["Failed to load config file " ++ fileName ++ ": " ++ e.message,
             tracebackOf e]

/-! ## Derived definitions used to state and prove the claims -/

/-- Pure update-or-append on an association list: the successful branch of
`setItem` (the key being hashable). -/
def dictSet {β : Type} (m : List (PyVal × β)) (k : PyVal) (v : β) :
    List (PyVal × β) :=
  if m.any (fun kv => kv.1 == k) then
    m.map (fun kv => if kv.1 == k then (k, v) else kv)
  else m ++ [(k, v)]

/-- The `name` value of a provider/model list entry. -/
def entryName (m : PyVal) : PyVal :=
  match m with
  | .dict kvs => dGet kvs "name"
  | _ => .null

/-- A model list entry that the loader accepts: a mapping with a non-null
(and hashable) `name`. -/
def validModelEntry (m : PyVal) : Bool :=
  match m with
  | .dict kvs => !(dGet kvs "name").isNull && (dGet kvs "name").hashable
  | _ => false

/-- A provider list entry that the loader accepts: a mapping with a
non-null hashable `name` and a non-empty `models` list of valid entries. -/
def validProviderEntry (p : PyVal) : Bool :=
  match p with
  | .dict kvs =>
    !(dGet kvs "name").isNull && (dGet kvs "name").hashable &&
    (match dGet kvs "models" with
     | .list ms => !ms.isEmpty && ms.all validModelEntry
     | _ => false)
  | _ => false

/-- The `ModelConfig` built from a (valid) model mapping. -/
def modelOfDict : PyVal → ModelConfig
  | .dict kvs =>
    { name := dGet kvs "name", url := dGet kvs "url",
      credential_path := dGet kvs "credential_path" }
  | _ => {}

/-- The pure dictionary produced by the model loop on valid entries. -/
def foldInsertM (items : List PyVal) (acc : List (PyVal × ModelConfig)) :
    List (PyVal × ModelConfig) :=
  items.foldl (fun a m => dictSet a (entryName m) (modelOfDict m)) acc

/-- The `ProviderConfig` built from a (valid) provider mapping. -/
def providerOfDict : PyVal → ProviderConfig
  | .dict kvs =>
    { name := dGet kvs "name", url := dGet kvs "url",
      credential_path := dGet kvs "credential_path",
      models := match dGet kvs "models" with
                | .list ms => foldInsertM ms []
                | _ => [] }
  | _ => {}

/-- The pure dictionary produced by the provider loop on valid entries. -/
def foldInsertP (items : List PyVal) (acc : List (PyVal × ProviderConfig)) :
    List (PyVal × ProviderConfig) :=
  items.foldl (fun a p => dictSet a (entryName p) (providerOfDict p)) acc

/-- How many entries of the keyed mapping carry the key `n`. -/
def keyCount {β : Type} (m : List (PyVal × β)) (n : PyVal) : Nat :=
  (m.filter (fun kv => kv.1 == n)).length

/-- The key set of the mapping equals the set of the given names
(mutual inclusion, under Python value equality). -/
def coversNames {β : Type} (m : List (PyVal × β)) (names : List PyVal) : Bool :=
  names.all (fun n => m.any (fun kv => kv.1 == n)) &&
  m.all (fun kv => names.any (fun n => n == kv.1))

/-! ## Concrete documents -/

/-- The `ols_config` section of the end-to-end document of the spec
(section 8), `classifier_model` included. -/
def fullOlsKvs : List (String × PyVal) :=
  [("default_model", .str "gpt-4"),
   ("classifier_model", .str "gpt-4"),
   ("conversation_cache", .dict [
      ("type", .str "memory"),
      ("memory", .dict [("max_entries", .int 100)])]),
   ("logger_config", .dict [("level", .str "INFO")])]

/-- The provider entries of the end-to-end document: one provider
`openai` with one model `gpt-4`. -/
def fullPs : List PyVal :=
  [.dict [("name", .str "openai"),
          ("models", .list [.dict [("name", .str "gpt-4")]])]]

/-- The dictionary body of the fully-populated end-to-end document. -/
def fullKvs : List (String × PyVal) :=
  [("llm_providers", .list fullPs), ("ols_config", .dict fullOlsKvs)]

/-- The fully-populated, well-formed end-to-end document. -/
def fullDoc : PyVal := .dict fullKvs

/-- A provider whose `models` list names the same model `m` twice, with
different `url` fields. -/
def dupPkvs : List (String × PyVal) :=
  [("name", .str "p"),
   ("models", .list
     [.dict [("name", .str "m"), ("url", .str "u1")],
      .dict [("name", .str "m"), ("url", .str "u2")]])]

/-- The model entries of `dupPkvs`. -/
def dupModels : List PyVal :=
  [.dict [("name", .str "m"), ("url", .str "u1")],
   .dict [("name", .str "m"), ("url", .str "u2")]]

/-- A provider list naming the same provider `q` twice. -/
def dupPs : List PyVal :=
  [.dict [("name", .str "q"),
          ("models", .list [.dict [("name", .str "mm")]])],
   .dict [("name", .str "q"),
          ("models", .list [.dict [("name", .str "mm2")]])]]

/-- The same document with only `default_model` removed. -/
def noDefaultDoc : PyVal :=
  .dict [("llm_providers", .list fullPs),
         ("ols_config", .dict (fullOlsKvs.filter (fun kv => kv.1 != "default_model")))]

/-! ## Basic lemmas about the Python value model -/

/-- The `==` on Python values implies equality (containers compare `false`). -/
theorem PyVal.eq_of_beq : ∀ {a b : PyVal}, (a == b) = true → a = b := by
  intro a b h
  cases a <;> cases b <;> simp_all [BEq.beq, PyVal.beq]

/-- The `==` is reflexive on hashable Python values. -/
theorem PyVal.beq_self {a : PyVal} (h : a.hashable = true) : (a == a) = true := by
  cases a <;> simp_all [BEq.beq, PyVal.beq, PyVal.hashable]

/-- The `==` on Python values is symmetric. -/
theorem PyVal.beq_comm (a b : PyVal) : (a == b) = (b == a) := by
  cases a <;> cases b <;> simp [BEq.beq, PyVal.beq] <;> exact eq_comm

theorem pyBind_ok {α β : Type} (a : α) (f : α → Except PyErr β) :
    (Except.ok a : Except PyErr α) >>= f = f a := rfl

theorem pyBind_error {α β : Type} (e : PyErr) (f : α → Except PyErr β) :
    (Except.error e : Except PyErr α) >>= f = Except.error e := rfl

theorem pyGetD_dict (kvs : List (String × PyVal)) (k : String) (d : PyVal) :
    pyGetD (.dict kvs) k d = .ok (dGetD kvs k d) := rfl

/-- Subscripting recovers the value that a non-`None` `get` returned. -/
theorem pySub_of_dGet {kvs : List (String × PyVal)} {k : String}
    (h : (dGet kvs k).isNull = false) :
    pySub (.dict kvs) k = .ok (dGet kvs k) := by
  simp only [pySub, dGet, dGetD] at *
  cases hf : kvs.find? (fun kv => kv.1 == k) with
  | none => rw [hf] at h; simp [PyVal.isNull] at h
  | some kv => simp [hf]

/-- The `setItem` on a hashable key is the pure update-or-append. -/
theorem setItem_of_hashable {β : Type} {k : PyVal} (m : List (PyVal × β)) (v : β)
    (h : k.hashable = true) : setItem m k v = .ok (dictSet m k v) := by
  simp [setItem, dictSet, h]

/-! ## Lemmas about `dictSet` (update-or-append) -/

/-- The `dictSet` leaves the key list unchanged when the key is present and
appends it otherwise. -/
theorem dictSet_keys {β : Type} (m : List (PyVal × β)) (k : PyVal) (v : β) :
    (dictSet m k v).map Prod.fst =
      if m.any (fun kv => kv.1 == k) then m.map Prod.fst
      else m.map Prod.fst ++ [k] := by
  unfold dictSet
  split
  · rw [List.map_map]
    apply List.map_congr_left
    intro kv _
    by_cases hkv : (kv.1 == k) = true
    · show (if kv.1 == k then (k, v) else kv).1 = kv.1
      rw [if_pos hkv]
      exact (PyVal.eq_of_beq hkv).symm
    · show (if kv.1 == k then (k, v) else kv).1 = kv.1
      rw [if_neg hkv]
  · simp

/-- Membership in the key list after `dictSet`. -/
theorem mem_keys_dictSet {β : Type} (m : List (PyVal × β)) (k k2 : PyVal) (v : β) :
    k2 ∈ (dictSet m k v).map Prod.fst ↔ (k2 ∈ m.map Prod.fst ∨ k2 = k) := by
  rw [dictSet_keys]
  split
  · next hany =>
    constructor
    · exact Or.inl
    · rintro (h | rfl)
      · exact h
      · rcases List.any_eq_true.mp hany with ⟨kv, hmem, hbeq⟩
        rw [← PyVal.eq_of_beq hbeq]
        exact List.mem_map_of_mem Prod.fst hmem
  · simp

/-- The `find?` for the inserted key on the update branch of `dictSet`. -/
theorem find?_dictSet_present {β : Type} (m : List (PyVal × β)) (k : PyVal) (v : β)
    (hk : (k == k) = true) (hany : m.any (fun kv => kv.1 == k) = true) :
    (m.map (fun kv => if kv.1 == k then (k, v) else kv)).find?
      (fun kv => kv.1 == k) = some (k, v) := by
  induction m with
  | nil => simp at hany
  | cons kv rest ih =>
    rw [List.map_cons]
    by_cases hkv : (kv.1 == k) = true
    · rw [if_pos hkv]
      exact List.find?_cons_of_pos _ hk
    · have hkvf : (kv.1 == k) = false := by simpa using hkv
      rw [if_neg hkv]
      simp only [List.find?_cons, hkvf]
      apply ih
      simpa [hkvf] using hany

/-- The `find?` for a key other than the inserted one, on the update branch. -/
theorem find?_dictSet_other {β : Type} (m : List (PyVal × β)) (k n : PyVal) (v : β)
    (h : (k == n) = false) :
    (m.map (fun kv => if kv.1 == k then (k, v) else kv)).find?
      (fun kv => kv.1 == n) = m.find? (fun kv => kv.1 == n) := by
  induction m with
  | nil => rfl
  | cons kv rest ih =>
    rw [List.map_cons]
    by_cases hkv : (kv.1 == k) = true
    · have hkk : kv.1 = k := PyVal.eq_of_beq hkv
      rw [if_pos hkv]
      simp only [List.find?_cons, hkk, h]
      exact ih
    · rw [if_neg hkv]
      simp only [List.find?_cons]
      cases hn : (kv.1 == n) with
      | true => rfl
      | false => exact ih

/-- Looking up the just-inserted key. -/
theorem aGet?_dictSet_self {β : Type} (m : List (PyVal × β)) (k : PyVal) (v : β)
    (hk : k.hashable = true) : aGet? (dictSet m k v) k = some v := by
  unfold dictSet aGet?
  split
  · next hany => rw [find?_dictSet_present m k v (PyVal.beq_self hk) hany]; rfl
  · next hany =>
    rw [List.find?_append]
    have hnone : m.find? (fun kv => kv.1 == k) = Option.none := by
      rw [List.find?_eq_none]
      intro kv hmem
      by_contra hbeq
      exact hany (List.any_eq_true.mpr ⟨kv, hmem, by simpa using hbeq⟩)
    rw [hnone]
    simp [PyVal.beq_self hk]

/-- Looking up a different key after `dictSet`. -/
theorem aGet?_dictSet_ne {β : Type} (m : List (PyVal × β)) (k n : PyVal) (v : β)
    (h : (k == n) = false) : aGet? (dictSet m k v) n = aGet? m n := by
  unfold dictSet aGet?
  split
  · rw [find?_dictSet_other m k n v h]
  · rw [List.find?_append]
    have : [(k, v)].find? (fun kv => kv.1 == n) = Option.none := by simp [h]
    rw [this]
    cases m.find? (fun kv => kv.1 == n) <;> rfl

/-! ## Lemmas about folded insertion -/

/-- The `dictSet` preserves "at most one entry per key". -/
theorem keyCount_dictSet_le {β : Type} (m : List (PyVal × β)) (k n : PyVal) (v : β)
    (h : keyCount m n ≤ 1) : keyCount (dictSet m k v) n ≤ 1 := by
  unfold dictSet keyCount at *
  split
  · rw [List.filter_map, List.length_map]
    have heq : List.filter ((fun kv => kv.1 == n) ∘ fun kv =>
        if kv.1 == k then (k, v) else kv) m
        = List.filter (fun kv => kv.1 == n) m := by
      apply List.filter_congr
      intro kv _
      by_cases hkv : (kv.1 == k) = true
      · have hkk : kv.1 = k := PyVal.eq_of_beq hkv
        show ((if kv.1 == k then (k, v) else kv).1 == n) = (kv.1 == n)
        rw [if_pos hkv, hkk]
      · show ((if kv.1 == k then (k, v) else kv).1 == n) = (kv.1 == n)
        rw [if_neg hkv]
    rw [heq]
    exact h
  · next hany =>
    rw [List.filter_append, List.length_append]
    by_cases hkn : (k == n) = true
    · have hm0 : List.filter (fun kv : PyVal × β => kv.1 == n) m = [] := by
        rw [List.filter_eq_nil_iff]
        intro kv hmem hp
        apply hany
        apply List.any_eq_true.mpr
        refine ⟨kv, hmem, ?_⟩
        have hk : k = n := PyVal.eq_of_beq hkn
        rw [hk]
        exact hp
      rw [hm0]
      simpa using List.length_filter_le (fun kv : PyVal × β => kv.1 == n) [(k, v)]
    · have hknf : (k == n) = false := by simpa using hkn
      have h10 : List.filter (fun kv : PyVal × β => kv.1 == n) [(k, v)] = [] := by
        simp [List.filter, hknf]
      rw [h10]
      simpa using h

/-- The fold of `dictSet` preserves "at most one entry per key". -/
theorem keyCount_foldl_le {β : Type} (f : PyVal → β) (items : List PyVal)
    (acc : List (PyVal × β)) (n : PyVal) (h : keyCount acc n ≤ 1) :
    keyCount (items.foldl (fun a m => dictSet a (entryName m) (f m)) acc) n ≤ 1 := by
  induction items generalizing acc with
  | nil => exact h
  | cons m rest ih =>
    rw [List.foldl_cons]
    exact ih _ (keyCount_dictSet_le _ _ _ _ h)

/-- A successful lookup means at least one entry carries the key. -/
theorem keyCount_pos_of_aGet? {β : Type} {m : List (PyVal × β)} {n : PyVal} {v : β}
    (h : aGet? m n = some v) : 1 ≤ keyCount m n := by
  unfold aGet? at h
  cases hf : m.find? (fun kv => kv.1 == n) with
  | none => rw [hf] at h; simp at h
  | some kv =>
    have h1 : kv ∈ m := List.mem_of_find?_eq_some hf
    have h2 := List.find?_some hf
    have hmem : kv ∈ List.filter (fun kv => kv.1 == n) m :=
      List.mem_filter.mpr ⟨h1, h2⟩
    have := List.length_pos.mpr (List.ne_nil_of_mem hmem)
    unfold keyCount
    omega

/-- Lookup after folding insertions: the last inserted value for the key
wins; keys never inserted fall through to the accumulator. -/
theorem aGet?_foldl_dictSet {β : Type} (f : PyVal → β) (items : List PyVal)
    (acc : List (PyVal × β)) (n : PyVal)
    (hh : ∀ m ∈ items, (entryName m).hashable = true) :
    aGet? (items.foldl (fun a m => dictSet a (entryName m) (f m)) acc) n =
      match items.reverse.find? (fun m => entryName m == n) with
      | some mlast => some (f mlast)
      | Option.none => aGet? acc n := by
  induction items generalizing acc with
  | nil => rfl
  | cons m rest ih =>
    rw [List.foldl_cons, List.reverse_cons, List.find?_append]
    rw [ih _ (fun x hx => hh x (List.mem_cons_of_mem _ hx))]
    cases hr : rest.reverse.find? (fun m => entryName m == n) with
    | some mlast => rfl
    | none =>
      cases hpm : (entryName m == n) with
      | true =>
        have hone : [m].find? (fun m => entryName m == n) = some m :=
          List.find?_cons_of_pos _ hpm
        rw [hone]
        rw [← PyVal.eq_of_beq hpm]
        exact aGet?_dictSet_self acc (entryName m) (f m) (hh m (List.mem_cons_self m rest))
      | false =>
        have hnone : [m].find? (fun m => entryName m == n) = Option.none := by
          simp only [List.find?_cons, hpm]
          rfl
        rw [hnone]
        exact aGet?_dictSet_ne acc (entryName m) n (f m) hpm

/-- Key membership after folding insertions. -/
theorem mem_keys_foldl_dictSet {β : Type} (f : PyVal → β) (items : List PyVal)
    (acc : List (PyVal × β)) (k2 : PyVal) :
    k2 ∈ (items.foldl (fun a m => dictSet a (entryName m) (f m)) acc).map Prod.fst ↔
      (k2 ∈ acc.map Prod.fst ∨ ∃ m ∈ items, entryName m = k2) := by
  induction items generalizing acc with
  | nil => simp
  | cons m rest ih =>
    rw [List.foldl_cons, ih, mem_keys_dictSet]
    constructor
    · rintro ((h | rfl) | ⟨m2, hm2, rfl⟩)
      · exact Or.inl h
      · exact Or.inr ⟨m, List.mem_cons_self m rest, rfl⟩
      · exact Or.inr ⟨m2, List.mem_cons_of_mem _ hm2, rfl⟩
    · rintro (h | ⟨m2, hm2, rfl⟩)
      · exact Or.inl (Or.inl h)
      · rcases List.mem_cons.mp hm2 with rfl | hm2
        · exact Or.inl (Or.inr rfl)
        · exact Or.inr ⟨m2, hm2, rfl⟩

/-! ## Characterization of the constructors on accepted input -/

/-- The `ModelConfig(m)` on a mapping returns the record of its fields. -/
theorem modelConfig_ofData_dict (kvs : List (String × PyVal)) :
    ModelConfig.ofData (.dict kvs) = .ok (modelOfDict (.dict kvs)) := rfl

/-- A valid entry is a mapping. -/
theorem validModelEntry_dict {m : PyVal} (h : validModelEntry m = true) :
    ∃ kvs, m = .dict kvs := by
  cases m <;> simp_all [validModelEntry]

/-- The fields forced by a valid model entry. -/
theorem validModelEntry_name {kvs : List (String × PyVal)}
    (h : validModelEntry (.dict kvs) = true) :
    (dGet kvs "name").isNull = false ∧ (dGet kvs "name").hashable = true := by
  simp [validModelEntry] at h
  exact ⟨by simpa using h.1, h.2⟩

/-- One accepted step of the model loop is a `dictSet` insertion. -/
theorem buildModels_cons_valid (m : PyVal) (rest : List PyVal)
    (acc : List (PyVal × ModelConfig)) (h : validModelEntry m = true) :
    buildModels (m :: rest) acc =
      buildModels rest (dictSet acc (entryName m) (modelOfDict m)) := by
  obtain ⟨kvs, rfl⟩ := validModelEntry_dict h
  obtain ⟨h1, h2⟩ := validModelEntry_name h
  show (pyGetD (.dict kvs) "name" .null >>= fun n =>
    if n.isNull then Except.error (.exc "model name is missing")
    else do
      let model ← ModelConfig.ofData (.dict kvs)
      let key ← pySub (.dict kvs) "name"
      let acc2 ← setItem acc key model
      buildModels rest acc2) = _
  rw [pyGetD_dict, pyBind_ok]
  rw [if_neg (by simp [show dGetD kvs "name" .null = dGet kvs "name" from rfl, h1])]
  rw [modelConfig_ofData_dict, pyBind_ok]
  rw [pySub_of_dGet h1, pyBind_ok]
  rw [setItem_of_hashable acc (modelOfDict (.dict kvs)) h2, pyBind_ok]
  rfl

/-- On a list of valid entries the model loop never fails and produces
exactly the folded insertions. -/
theorem buildModels_eq_fold (items : List PyVal) (acc : List (PyVal × ModelConfig))
    (h : ∀ m ∈ items, validModelEntry m = true) :
    buildModels items acc = .ok (foldInsertM items acc) := by
  induction items generalizing acc with
  | nil => rfl
  | cons m rest ih =>
    rw [buildModels_cons_valid m rest acc (h m (List.mem_cons_self m rest))]
    rw [show foldInsertM (m :: rest) acc
      = foldInsertM rest (dictSet acc (entryName m) (modelOfDict m)) from rfl]
    exact ih _ (fun x hx => h x (List.mem_cons_of_mem _ hx))

theorem dGetD_null (kvs : List (String × PyVal)) (k : String) :
    dGetD kvs k .null = dGet kvs k := rfl

theorem pyLen_list (xs : List PyVal) : pyLen (.list xs) = .ok xs.length := rfl

theorem pyIter_list (xs : List PyVal) : pyIter (.list xs) = .ok xs := rfl

/-- Unpacking a valid provider entry over its dictionary body. -/
theorem validProviderEntry_parts {kvs : List (String × PyVal)}
    (h : validProviderEntry (.dict kvs) = true) :
    (dGet kvs "name").isNull = false ∧ (dGet kvs "name").hashable = true ∧
    ∃ ms, dGet kvs "models" = .list ms ∧ ms ≠ [] ∧
      ∀ m ∈ ms, validModelEntry m = true := by
  simp only [validProviderEntry, Bool.and_eq_true] at h
  obtain ⟨⟨hn, hh⟩, hm⟩ := h
  refine ⟨by simpa using hn, hh, ?_⟩
  cases hmm : dGet kvs "models" <;> rw [hmm] at hm
  case list ms =>
    simp only [Bool.and_eq_true] at hm
    refine ⟨ms, rfl, ?_, ?_⟩
    · simpa [List.isEmpty_iff] using hm.1
    · simpa [List.all_eq_true] using hm.2
  all_goals simp at hm

/-- The `ProviderConfig(p)` on a mapping with a non-empty list of valid models
returns the record of its fields, with the folded model dictionary. -/
theorem providerConfig_ofData_models (pkvs : List (String × PyVal)) (ms : List PyVal)
    (hm : dGet pkvs "models" = .list ms) (hne : ms ≠ [])
    (hval : ∀ m ∈ ms, validModelEntry m = true) :
    ProviderConfig.ofData (.dict pkvs) =
      .ok { name := dGet pkvs "name", url := dGet pkvs "url",
            credential_path := dGet pkvs "credential_path",
            models := foldInsertM ms [] } := by
  have hnull : (dGet pkvs "models").isNull = false := by rw [hm]; rfl
  have hlen : (ms.length == 0) = false := by simp [List.length_eq_zero, hne]
  unfold ProviderConfig.ofData
  simp only [PyVal.isNull, pyGetD_dict, pyBind_ok, dGetD_null, hm,
    pySub_of_dGet hnull, pyLen_list, pyIter_list, hlen,
    buildModels_eq_fold ms [] hval, Bool.false_eq_true, if_false]

/-- A valid provider entry is a mapping. -/
theorem validProviderEntry_dict {p : PyVal} (h : validProviderEntry p = true) :
    ∃ kvs, p = .dict kvs := by
  cases p <;> simp_all [validProviderEntry]

/-- The `ProviderConfig(p)` on a valid provider entry. -/
theorem providerConfig_ofData_valid {p : PyVal} (h : validProviderEntry p = true) :
    ProviderConfig.ofData p = .ok (providerOfDict p) := by
  obtain ⟨kvs, rfl⟩ := validProviderEntry_dict h
  obtain ⟨hn, hh, ms, hm, hne, hval⟩ := validProviderEntry_parts h
  rw [providerConfig_ofData_models kvs ms hm hne hval]
  simp [providerOfDict, hm]

/-- One accepted step of the provider loop is a `dictSet` insertion. -/
theorem buildProviders_cons_valid (p : PyVal) (rest : List PyVal)
    (acc : List (PyVal × ProviderConfig)) (h : validProviderEntry p = true) :
    buildProviders (p :: rest) acc =
      buildProviders rest (dictSet acc (entryName p) (providerOfDict p)) := by
  obtain ⟨kvs, rfl⟩ := validProviderEntry_dict h
  obtain ⟨hn, hh, ms, hm, hne, hval⟩ := validProviderEntry_parts h
  simp only [buildProviders, pyGetD_dict, pyBind_ok, dGetD_null, hn,
    providerConfig_ofData_valid h, pySub_of_dGet hn,
    setItem_of_hashable acc (providerOfDict (.dict kvs)) hh,
    Bool.false_eq_true, if_false, entryName]

/-- On a list of valid entries the provider loop never fails and produces
exactly the folded insertions. -/
theorem buildProviders_eq_fold (items : List PyVal)
    (acc : List (PyVal × ProviderConfig))
    (h : ∀ p ∈ items, validProviderEntry p = true) :
    buildProviders items acc = .ok (foldInsertP items acc) := by
  induction items generalizing acc with
  | nil => rfl
  | cons p rest ih =>
    rw [buildProviders_cons_valid p rest acc (h p (List.mem_cons_self p rest))]
    rw [show foldInsertP (p :: rest) acc
      = foldInsertP rest (dictSet acc (entryName p) (providerOfDict p)) from rfl]
    exact ih _ (fun x hx => h x (List.mem_cons_of_mem _ hx))

/-- The `LLMConfig(data)` on a non-empty list of valid provider entries. -/
theorem llmConfig_ofData_valid (ps : List PyVal) (hne : ps ≠ [])
    (hval : ∀ p ∈ ps, validProviderEntry p = true) :
    LLMConfig.ofData (.list ps) = .ok ⟨foldInsertP ps []⟩ := by
  have hlen : (ps.length == 0) = false := by simp [List.length_eq_zero, hne]
  unfold LLMConfig.ofData
  simp only [PyVal.isNull, pyLen_list, pyBind_ok, hlen, pyIter_list,
    buildProviders_eq_fold ps [] hval, Bool.false_eq_true, if_false]

/-- The `Config(data)` on a well-formed document. -/
theorem config_ofData_valid (kvs : List (String × PyVal)) (ps : List PyVal)
    (hps : dGet kvs "llm_providers" = .list ps) (hne : ps ≠ [])
    (hval : ∀ p ∈ ps, validProviderEntry p = true)
    {o : OLSConfig} (ho : OLSConfig.ofData (dGet kvs "ols_config") = .ok o) :
    Config.ofData (.dict kvs) = .ok ⟨some ⟨foldInsertP ps []⟩, some o⟩ := by
  unfold Config.ofData
  simp only [PyVal.isNull, pyGetD_dict, pyBind_ok, dGetD_null, hps,
    llmConfig_ofData_valid ps hne hval, ho, Bool.false_eq_true, if_false]

/-! ## The `TypeError` of subscripting `None` never escapes the load path -/

/-- Propagating "is not this error" through a bind. -/
theorem bind_ne_of {α β : Type} (x : Except PyErr α) (f : α → Except PyErr β)
    (e0 : PyErr) (hx : x ≠ .error e0) (hf : ∀ a, (f a) ≠ .error e0) :
    (x >>= f) ≠ .error e0 := by
  cases x with
  | error e =>
    intro hcontra
    rw [pyBind_error] at hcontra
    injection hcontra with he
    exact hx (by rw [he])
  | ok a => exact hf a

/-- The `get` raises only attribute errors. -/
theorem pyGetD_ne_typeError (v : PyVal) (k : String) (d : PyVal) (s : String) :
    pyGetD v k d ≠ .error (.typeError s) := by
  cases v <;> simp [pyGetD]

/-- Subscripting a dict raises only key errors. -/
theorem pySub_dict_ne_typeError (kvs : List (String × PyVal)) (k : String)
    (s : String) : pySub (.dict kvs) k ≠ .error (.typeError s) := by
  unfold pySub
  cases hf : kvs.find? (fun kv => kv.1 == k) <;> simp [hf]

/-- The model loop never raises the `None`-subscript `TypeError`: every
entry's `name` is checked before `ModelConfig` is constructed. -/
theorem buildModels_ne_nonesub (items : List PyVal) (acc : List (PyVal × ModelConfig)) :
    buildModels items acc ≠
      .error (.typeError "'NoneType' object is not subscriptable") := by
  induction items generalizing acc with
  | nil => simp [buildModels]
  | cons m rest ih =>
    cases m with
    | dict kvs =>
      show (pyGetD (.dict kvs) "name" .null >>= fun n =>
        if n.isNull then Except.error (.exc "model name is missing")
        else do
          let model ← ModelConfig.ofData (.dict kvs)
          let key ← pySub (.dict kvs) "name"
          let acc2 ← setItem acc key model
          buildModels rest acc2) ≠ _
      rw [pyGetD_dict, pyBind_ok]
      by_cases hnn : (dGetD kvs "name" .null).isNull = true
      · simp [hnn]
      · have hnf : (dGetD kvs "name" .null).isNull = false := by simpa using hnn
        simp only [hnf, Bool.false_eq_true, if_false]
        rw [modelConfig_ofData_dict, pyBind_ok]
        apply bind_ne_of _ _ _ (pySub_dict_ne_typeError kvs "name" _)
        intro key
        apply bind_ne_of
        · unfold setItem
          by_cases hk : key.hashable = true
          · simp [hk]
          · cases key <;> simp_all [PyVal.hashable, PyVal.typeName]
        · intro acc2
          exact ih acc2
    | null => simp [buildModels, pyGetD, pyBind_error]
    | str s => simp [buildModels, pyGetD, pyBind_error]
    | int n2 => simp [buildModels, pyGetD, pyBind_error]
    | bool b => simp [buildModels, pyGetD, pyBind_error]
    | list xs => simp [buildModels, pyGetD, pyBind_error]

/-- The `len` never raises the `None`-subscript `TypeError`. -/
theorem pyLen_ne_nonesub (v : PyVal) :
    pyLen v ≠ .error (.typeError "'NoneType' object is not subscriptable") := by
  cases v <;> simp [pyLen, PyVal.typeName]

/-- Iteration never raises the `None`-subscript `TypeError`. -/
theorem pyIter_ne_nonesub (v : PyVal) :
    pyIter v ≠ .error (.typeError "'NoneType' object is not subscriptable") := by
  cases v <;> simp [pyIter, PyVal.typeName]


theorem isNull_dict (kvs : List (String × PyVal)) :
    (PyVal.dict kvs).isNull = false := rfl

/-- The `ProviderConfig(p)` never raises the `None`-subscript `TypeError`. -/
theorem providerConfig_ne_nonesub (p : PyVal) :
    ProviderConfig.ofData p ≠
      .error (.typeError "'NoneType' object is not subscriptable") := by
  cases p with
  | dict kvs =>
    unfold ProviderConfig.ofData
    simp only [isNull_dict, pyGetD_dict, pyBind_ok, dGetD_null,
      Bool.false_eq_true, if_false]
    by_cases hm : (dGet kvs "models").isNull = true
    · simp only [hm, if_true]
      apply bind_ne_of _ _ _ (pySub_dict_ne_typeError kvs "name" _)
      intro pn
      simp
    · have hmf : (dGet kvs "models").isNull = false := by simpa using hm
      simp only [hmf, Bool.false_eq_true, if_false]
      apply bind_ne_of _ _ _ (pySub_dict_ne_typeError kvs "models" _)
      intro mv
      apply bind_ne_of _ _ _ (pyLen_ne_nonesub mv)
      intro l
      by_cases hl : (l == 0) = true
      · simp only [hl, if_true]
        apply bind_ne_of _ _ _ (pySub_dict_ne_typeError kvs "name" _)
        intro pn
        simp
      · have hlf : (l == 0) = false := by simpa using hl
        simp only [hlf, Bool.false_eq_true, if_false]
        apply bind_ne_of _ _ _ (pySub_dict_ne_typeError kvs "models" _)
        intro mv2
        apply bind_ne_of _ _ _ (pyIter_ne_nonesub mv2)
        intro items
        apply bind_ne_of _ _ _ (buildModels_ne_nonesub items [])
        intro models
        simp
  | null => simp [ProviderConfig.ofData, PyVal.isNull]
  | str s => simp [ProviderConfig.ofData, PyVal.isNull, pyGetD, pyBind_error]
  | int n => simp [ProviderConfig.ofData, PyVal.isNull, pyGetD, pyBind_error]
  | bool b => simp [ProviderConfig.ofData, PyVal.isNull, pyGetD, pyBind_error]
  | list xs => simp [ProviderConfig.ofData, PyVal.isNull, pyGetD, pyBind_error]

/-- The provider loop never raises the `None`-subscript `TypeError`. -/
theorem buildProviders_ne_nonesub (items : List PyVal)
    (acc : List (PyVal × ProviderConfig)) :
    buildProviders items acc ≠
      .error (.typeError "'NoneType' object is not subscriptable") := by
  induction items generalizing acc with
  | nil => simp [buildProviders]
  | cons p rest ih =>
    cases p with
    | dict kvs =>
      show (pyGetD (.dict kvs) "name" .null >>= fun n =>
        if n.isNull then Except.error (.exc "provider name is missing")
        else do
          let provider ← ProviderConfig.ofData (.dict kvs)
          let key ← pySub (.dict kvs) "name"
          let acc2 ← setItem acc key provider
          buildProviders rest acc2) ≠ _
      rw [pyGetD_dict, pyBind_ok]
      by_cases hnn : (dGetD kvs "name" .null).isNull = true
      · simp [hnn]
      · have hnf : (dGetD kvs "name" .null).isNull = false := by simpa using hnn
        simp only [hnf, Bool.false_eq_true, if_false]
        apply bind_ne_of _ _ _ (providerConfig_ne_nonesub (.dict kvs))
        intro provider
        apply bind_ne_of _ _ _ (pySub_dict_ne_typeError kvs "name" _)
        intro key
        apply bind_ne_of
        · unfold setItem
          by_cases hk : key.hashable = true
          · simp [hk]
          · cases key <;> simp_all [PyVal.hashable, PyVal.typeName]
        · intro acc2
          exact ih acc2
    | null => simp [buildProviders, pyGetD, pyBind_error]
    | str s => simp [buildProviders, pyGetD, pyBind_error]
    | int n2 => simp [buildProviders, pyGetD, pyBind_error]
    | bool b => simp [buildProviders, pyGetD, pyBind_error]
    | list xs => simp [buildProviders, pyGetD, pyBind_error]

/-- The `LLMConfig(v)` never raises the `None`-subscript `TypeError`. -/
theorem llmConfig_ne_nonesub (v : PyVal) :
    LLMConfig.ofData v ≠
      .error (.typeError "'NoneType' object is not subscriptable") := by
  by_cases hv : v.isNull = true
  · simp [LLMConfig.ofData, hv]
  · have hvf : v.isNull = false := by simpa using hv
    unfold LLMConfig.ofData
    simp only [hvf, Bool.false_eq_true, if_false]
    apply bind_ne_of _ _ _ (pyLen_ne_nonesub v)
    intro l
    by_cases hl : (l == 0) = true
    · simp [hl]
    · have hlf : (l == 0) = false := by simpa using hl
      simp only [hlf, Bool.false_eq_true, if_false]
      apply bind_ne_of _ _ _ (pyIter_ne_nonesub v)
      intro items
      apply bind_ne_of _ _ _ (buildProviders_ne_nonesub items [])
      intro providers
      simp

/-- The `RedisConfig(v)` never raises the `None`-subscript `TypeError`. -/
theorem redisConfig_ne_nonesub (v : PyVal) :
    RedisConfig.ofData v ≠
      .error (.typeError "'NoneType' object is not subscriptable") := by
  cases v <;>
    simp [RedisConfig.ofData, PyVal.isNull, pyGetD, pyBind_error, pyBind_ok]

/-- The `MemoryConfig(v)` never raises the `None`-subscript `TypeError`. -/
theorem memoryConfig_ne_nonesub (v : PyVal) :
    MemoryConfig.ofData v ≠
      .error (.typeError "'NoneType' object is not subscriptable") := by
  cases v <;>
    simp [MemoryConfig.ofData, PyVal.isNull, pyGetD, pyBind_error, pyBind_ok]

/-- The `LoggerConfig(v)` never raises the `None`-subscript `TypeError`. -/
theorem loggerConfig_ne_nonesub (v : PyVal) :
    LoggerConfig.ofData v ≠
      .error (.typeError "'NoneType' object is not subscriptable") := by
  cases v <;>
    simp [LoggerConfig.ofData, PyVal.isNull, pyGetD, pyBind_error, pyBind_ok]

/-- The `ConversationCacheConfig(v)` never raises the `None`-subscript
`TypeError`. -/
theorem cacheConfig_ne_nonesub (v : PyVal) :
    ConversationCacheConfig.ofData v ≠
      .error (.typeError "'NoneType' object is not subscriptable") := by
  cases v with
  | dict kvs =>
    unfold ConversationCacheConfig.ofData
    simp only [isNull_dict, pyGetD_dict, pyBind_ok, dGetD_null,
      Bool.false_eq_true, if_false]
    by_cases ht : (dGet kvs "type").eqStr "redis" = true
    · simp only [ht, if_true]
      by_cases hr : (dGet kvs "redis").isNull = true
      · simp [hr]
      · have hrf : (dGet kvs "redis").isNull = false := by simpa using hr
        simp only [hrf, Bool.false_eq_true, if_false]
        apply bind_ne_of _ _ _ (redisConfig_ne_nonesub _)
        intro rc
        simp
    · have htf : (dGet kvs "type").eqStr "redis" = false := by simpa using ht
      simp only [htf, Bool.false_eq_true, if_false]
      by_cases hm : (dGet kvs "type").eqStr "memory" = true
      · simp only [hm, if_true]
        by_cases hmm : (dGet kvs "memory").isNull = true
        · simp [hmm]
        · have hmf : (dGet kvs "memory").isNull = false := by simpa using hmm
          simp only [hmf, Bool.false_eq_true, if_false]
          apply bind_ne_of _ _ _ (memoryConfig_ne_nonesub _)
          intro mc
          simp
      · have hmf : (dGet kvs "type").eqStr "memory" = false := by simpa using hm
        simp [hmf]
  | null => simp [ConversationCacheConfig.ofData, PyVal.isNull]
  | str s => simp [ConversationCacheConfig.ofData, PyVal.isNull, pyGetD, pyBind_error]
  | int n => simp [ConversationCacheConfig.ofData, PyVal.isNull, pyGetD, pyBind_error]
  | bool b => simp [ConversationCacheConfig.ofData, PyVal.isNull, pyGetD, pyBind_error]
  | list xs => simp [ConversationCacheConfig.ofData, PyVal.isNull, pyGetD, pyBind_error]

/-- The `OLSConfig(v)` never raises the `None`-subscript `TypeError`. -/
theorem olsConfig_ne_nonesub (v : PyVal) :
    OLSConfig.ofData v ≠
      .error (.typeError "'NoneType' object is not subscriptable") := by
  cases v with
  | dict kvs =>
    unfold OLSConfig.ofData
    simp only [isNull_dict, pyGetD_dict, pyBind_ok, dGetD_null,
      Bool.false_eq_true, if_false]
    apply bind_ne_of _ _ _ (cacheConfig_ne_nonesub _)
    intro cc
    apply bind_ne_of _ _ _ (loggerConfig_ne_nonesub _)
    intro lc
    simp
  | null => simp [OLSConfig.ofData, PyVal.isNull]
  | str s => simp [OLSConfig.ofData, PyVal.isNull, pyGetD, pyBind_error]
  | int n => simp [OLSConfig.ofData, PyVal.isNull, pyGetD, pyBind_error]
  | bool b => simp [OLSConfig.ofData, PyVal.isNull, pyGetD, pyBind_error]
  | list xs => simp [OLSConfig.ofData, PyVal.isNull, pyGetD, pyBind_error]

/-- The `Config(v)` never raises the `None`-subscript `TypeError`. -/
theorem config_ne_nonesub (v : PyVal) :
    Config.ofData v ≠
      .error (.typeError "'NoneType' object is not subscriptable") := by
  cases v with
  | dict kvs =>
    unfold Config.ofData
    simp only [isNull_dict, pyGetD_dict, pyBind_ok, dGetD_null,
      Bool.false_eq_true, if_false]
    apply bind_ne_of _ _ _ (llmConfig_ne_nonesub _)
    intro llm
    apply bind_ne_of _ _ _ (olsConfig_ne_nonesub _)
    intro ols
    simp
  | null => simp [Config.ofData, PyVal.isNull]
  | str s => simp [Config.ofData, PyVal.isNull, pyGetD, pyBind_error]
  | int n => simp [Config.ofData, PyVal.isNull, pyGetD, pyBind_error]
  | bool b => simp [Config.ofData, PyVal.isNull, pyGetD, pyBind_error]
  | list xs => simp [Config.ofData, PyVal.isNull, pyGetD, pyBind_error]

/-! ## Shape of a successfully constructed `OLSConfig` -/

/-- A successful `OLSConfig` construction from a present mapping always
fills `conversation_cache` and `logger_config` with objects. -/
theorem olsConfig_ok_shape {kvs : List (String × PyVal)} {o : OLSConfig}
    (h : OLSConfig.ofData (.dict kvs) = .ok o) :
    o.conversation_cache ≠ Option.none ∧ o.logger_config ≠ Option.none := by
  unfold OLSConfig.ofData at h
  simp only [isNull_dict, pyGetD_dict, pyBind_ok, dGetD_null,
    Bool.false_eq_true, if_false] at h
  cases hcc : ConversationCacheConfig.ofData (dGet kvs "conversation_cache") with
  | error e => rw [hcc, pyBind_error] at h; cases h
  | ok cc =>
    rw [hcc, pyBind_ok] at h
    cases hlc : LoggerConfig.ofData (dGet kvs "logger_config") with
    | error e => rw [hlc, pyBind_error] at h; cases h
    | ok lc =>
      rw [hlc, pyBind_ok] at h
      injection h with h2
      rw [← h2]
      exact ⟨by simp, by simp⟩

/-- A successful `OLSConfig` construction comes from `None` or a mapping. -/
theorem olsConfig_ok_form {v : PyVal} {o : OLSConfig}
    (h : OLSConfig.ofData v = .ok o) :
    v = .null ∨ ∃ kvs, v = .dict kvs := by
  cases v with
  | null => exact Or.inl rfl
  | dict kvs => exact Or.inr ⟨kvs, rfl⟩
  | str s => simp [OLSConfig.ofData, PyVal.isNull, pyGetD, pyBind_error] at h
  | int n => simp [OLSConfig.ofData, PyVal.isNull, pyGetD, pyBind_error] at h
  | bool b => simp [OLSConfig.ofData, PyVal.isNull, pyGetD, pyBind_error] at h
  | list xs => simp [OLSConfig.ofData, PyVal.isNull, pyGetD, pyBind_error] at h

/-! ## Claim theorems -/

/-- C1: the fully-populated, well-formed document (provider `openai`
with model `gpt-4`, `default_model`, `classifier_model`, memory
conversation cache and logger config all present) constructs a
`Config` on which `validate()` nevertheless raises "classifier model is
not set", because `OLSConfig.__init__` never assigns `classifier_model`
from the document; removing only `default_model` makes `validate()` fail
on the default-model check instead.  The first half of the claim
("validate() raises no error") is therefore violated by the code. -/
theorem c1_validate_fails_on_classifier :
    dGet fullOlsKvs "classifier_model" = .str "gpt-4" ∧
    (Config.ofData fullDoc).map Config.validate =
      .ok (.error (.exc "classifier model is not set")) ∧
    (Config.ofData noDefaultDoc).map Config.validate =
      .ok (.error (.exc "default model is not set")) :=
  ⟨rfl, rfl, rfl⟩

/-- C2 counterexample: a successful `load_config` returns a
configuration on which `validate()` fails, refuting "load never returns
a configuration on which validate() would fail". -/
theorem c2_load_unvalidated_counterexample :
    ∃ c, load_config "olsconfig.yaml" (.ok fullDoc) = .ok c [] ∧
      c.validate = .error (.exc "classifier model is not set") :=
  ⟨_, rfl, rfl⟩

/-- C2 (amended): `load_config` performs no validation pass: a
successful load returns exactly the configuration produced by
construction, and that configuration can fail `validate()`. -/
theorem c2_load_skips_validate :
    (∀ (fn : String) (parsed : Except PyErr PyVal) (c : Config)
       (out : List String),
      load_config fn parsed = .ok c out →
      parsed.bind Config.ofData = .ok c ∧ out = [])
    ∧ ∃ c, load_config "olsconfig.yaml" (.ok fullDoc) = .ok c [] ∧
        c.validate = .error (.exc "classifier model is not set") := by
  constructor
  · intro fn parsed c out h
    unfold load_config at h
    cases hb : parsed.bind Config.ofData with
    | ok c2 =>
      rw [hb] at h
      injection h with h1 h2
      exact ⟨by rw [h1], h2.symm⟩
    | error e => rw [hb] at h; cases h
  · exact ⟨_, rfl, rfl⟩

/-- C2 witness: the amended theorem applied at a concrete input. -/
theorem c2_load_skips_validate_witness :
    (Except.ok PyVal.null).bind Config.ofData = .ok {} ∧
      ([] : List String) = [] :=
  c2_load_skips_validate.1 "olsconfig.yaml" (.ok .null) {} [] rfl

/-- C3: `load_config` either returns the constructed configuration and
prints nothing, or, on any parse or construction error, prints the
failure message (naming the file and the error) and the diagnostic
trace and exits the process with status 1. -/
theorem c3_load_exit_contract (fn : String) (parsed : Except PyErr PyVal) :
    (∃ c, parsed.bind Config.ofData = .ok c ∧
      load_config fn parsed = .ok c []) ∨
    (∃ e, parsed.bind Config.ofData = .error e ∧
      load_config fn parsed =
        .exit 1 ["Failed to load config file " ++ fn ++ ": " ++ e.message,
                 tracebackOf e]) := by
  unfold load_config
  cases hb : parsed.bind Config.ofData with
  | ok c => exact Or.inl ⟨c, rfl, rfl⟩
  | error e => exact Or.inr ⟨e, rfl, rfl⟩

/-- C10: constructing `ModelConfig` from `None` raises, but the raised
error is the `TypeError` from subscripting `None` in the f-string, not
the intended "model config is missing" diagnostic; and no document
whatsoever can make `Config` construction surface that `TypeError`,
because both loops check the `name` key before building a model. -/
theorem c10_modelconfig_none_typeerror :
    ModelConfig.ofData .null =
      .error (.typeError "'NoneType' object is not subscriptable") ∧
    (∀ s : String, ModelConfig.ofData .null ≠
      .error (.exc ("model config is missing for model " ++ s))) ∧
    ∀ data : PyVal, Config.ofData data ≠
      .error (.typeError "'NoneType' object is not subscriptable") := by
  refine ⟨rfl, ?_, config_ne_nonesub⟩
  intro s h
  cases h

/-- C10 witness: the theorem applied at the concrete end-to-end
document. -/
theorem c10_modelconfig_none_typeerror_witness :
    Config.ofData fullDoc ≠
      .error (.typeError "'NoneType' object is not subscriptable") :=
  c10_modelconfig_none_typeerror.2.2 fullDoc

theorem isNull_null : PyVal.null.isNull = true := rfl


theorem eqStr_memory_not_redis {v : PyVal} (h : v.eqStr "memory" = true) :
    v.eqStr "redis" = false := by
  cases v with
  | str s =>
    simp only [PyVal.eqStr, beq_iff_eq] at h ⊢
    subst h
    decide
  | null => simp [PyVal.eqStr]
  | int n => simp [PyVal.eqStr]
  | bool b => simp [PyVal.eqStr]
  | list xs => simp [PyVal.eqStr]
  | dict kvs => simp [PyVal.eqStr]

/-- C6: with `type == "redis"` and no `redis` sub-block, cache
construction raises "redis config is missing"; symmetrically for
`type == "memory"`; any other `type` (or an absent section) is accepted
with both backing sub-configs left unset. -/
theorem c6_cache_type_requires_subconfig :
    (∀ kvs : List (String × PyVal), (dGet kvs "type").eqStr "redis" = true →
      dGet kvs "redis" = .null →
      ConversationCacheConfig.ofData (.dict kvs) =
        .error (.exc "redis config is missing"))
    ∧ (∀ kvs : List (String × PyVal), (dGet kvs "type").eqStr "memory" = true →
      dGet kvs "memory" = .null →
      ConversationCacheConfig.ofData (.dict kvs) =
        .error (.exc "memory config is missing"))
    ∧ (∀ kvs : List (String × PyVal),
      (dGet kvs "type").eqStr "redis" = false →
      (dGet kvs "type").eqStr "memory" = false →
      ConversationCacheConfig.ofData (.dict kvs) =
        .ok { type := dGet kvs "type", redis := Option.none,
              memory := Option.none })
    ∧ ConversationCacheConfig.ofData .null = .ok {} := by
  refine ⟨?_, ?_, ?_, rfl⟩
  · intro kvs ht hr
    unfold ConversationCacheConfig.ofData
    simp only [isNull_dict, pyGetD_dict, pyBind_ok, dGetD_null,
      Bool.false_eq_true, if_false, ht, if_true, hr, isNull_null]
  · intro kvs ht hm
    have hrf : (dGet kvs "type").eqStr "redis" = false := eqStr_memory_not_redis ht
    unfold ConversationCacheConfig.ofData
    simp only [isNull_dict, pyGetD_dict, pyBind_ok, dGetD_null,
      Bool.false_eq_true, if_false, hrf, ht, if_true, hm, isNull_null]
  · intro kvs hr hm
    unfold ConversationCacheConfig.ofData
    simp only [isNull_dict, pyGetD_dict, pyBind_ok, dGetD_null,
      Bool.false_eq_true, if_false, hr, hm]

/-- C6 witness: the theorem applied at concrete cache sections. -/
theorem c6_cache_type_requires_subconfig_witness :
    ConversationCacheConfig.ofData (.dict [("type", .str "redis")]) =
      .error (.exc "redis config is missing") ∧
    ConversationCacheConfig.ofData (.dict [("type", .str "memory")]) =
      .error (.exc "memory config is missing") ∧
    ConversationCacheConfig.ofData (.dict [("type", .str "postgres")]) =
      .ok { type := .str "postgres", redis := Option.none,
            memory := Option.none } :=
  ⟨c6_cache_type_requires_subconfig.1 [("type", .str "redis")] rfl rfl,
   c6_cache_type_requires_subconfig.2.1 [("type", .str "memory")] rfl rfl,
   c6_cache_type_requires_subconfig.2.2.1 [("type", .str "postgres")] rfl rfl⟩

/-! ## C7: a missing `name` stops the loops -/

/-- If every entry before the offender is valid and the offender is a
mapping without a non-null `name`, the model loop fails with the
missing-name error, whatever follows. -/
theorem buildModels_offender (earlier : List PyVal) (off : PyVal)
    (rest : List PyVal) (acc : List (PyVal × ModelConfig))
    (hval : ∀ m ∈ earlier, validModelEntry m = true)
    (hoff : ∃ okvs, off = .dict okvs) (hnull : entryName off = .null) :
    buildModels (earlier ++ off :: rest) acc =
      .error (.exc "model name is missing") := by
  induction earlier generalizing acc with
  | nil =>
    obtain ⟨okvs, rfl⟩ := hoff
    have hq : dGet okvs "name" = .null := hnull
    rw [List.nil_append]
    simp only [buildModels, pyGetD_dict, pyBind_ok, dGetD_null, hq,
      isNull_null, if_true]
  | cons m earlier2 ih =>
    rw [List.cons_append,
      buildModels_cons_valid m _ acc (hval m (List.mem_cons_self m earlier2))]
    exact ih _ (fun x hx => hval x (List.mem_cons_of_mem _ hx))

/-- Provider-loop version of `buildModels_offender`. -/
theorem buildProviders_offender (earlier : List PyVal) (off : PyVal)
    (rest : List PyVal) (acc : List (PyVal × ProviderConfig))
    (hval : ∀ p ∈ earlier, validProviderEntry p = true)
    (hoff : ∃ okvs, off = .dict okvs) (hnull : entryName off = .null) :
    buildProviders (earlier ++ off :: rest) acc =
      .error (.exc "provider name is missing") := by
  induction earlier generalizing acc with
  | nil =>
    obtain ⟨okvs, rfl⟩ := hoff
    have hq : dGet okvs "name" = .null := hnull
    rw [List.nil_append]
    simp only [buildProviders, pyGetD_dict, pyBind_ok, dGetD_null, hq,
      isNull_null, if_true]
  | cons p earlier2 ih =>
    rw [List.cons_append,
      buildProviders_cons_valid p _ acc (hval p (List.mem_cons_self p earlier2))]
    exact ih _ (fun x hx => hval x (List.mem_cons_of_mem _ hx))

/-- C7 counterexample: a document in which a provider entry lacks
`name`, yet construction fails with the no-models error of the earlier
entry rather than a missing-name error. -/
theorem c7_missing_name_counterexample :
    LLMConfig.ofData (.list [.dict [("name", .str "a")], .dict []]) =
      .error (.exc "no models configured for provider a") ∧
    entryName (.dict []) = .null ∧
    PyErr.exc "no models configured for provider a" ≠
      .exc "provider name is missing" ∧
    PyErr.exc "no models configured for provider a" ≠
      .exc "model name is missing" := by
  refine ⟨rfl, rfl, ?_, ?_⟩ <;> decide

/-- C7 (amended): when the first offending list entry is a mapping
lacking a non-null `name` and every entry before it is valid,
construction fails with the missing-name error, and the result is the
same whatever entries follow the offender (they are never processed). -/
theorem c7_missing_name_fails_fast :
    (∀ (pkvs : List (String × PyVal)) (ms earlier : List PyVal) (off : PyVal)
       (rest : List PyVal),
      dGet pkvs "models" = .list ms → ms = earlier ++ off :: rest →
      (∀ m ∈ earlier, validModelEntry m = true) →
      (∃ okvs, off = .dict okvs) → entryName off = .null →
      ProviderConfig.ofData (.dict pkvs) =
        .error (.exc "model name is missing"))
    ∧ (∀ (earlier : List PyVal) (off : PyVal) (rest : List PyVal),
      (∀ p ∈ earlier, validProviderEntry p = true) →
      (∃ okvs, off = .dict okvs) → entryName off = .null →
      LLMConfig.ofData (.list (earlier ++ off :: rest)) =
        .error (.exc "provider name is missing")) := by
  constructor
  · intro pkvs ms earlier off rest hm hms hval hoff hnull
    subst hms
    have hne : earlier ++ off :: rest ≠ [] := by simp
    have hnn : (dGet pkvs "models").isNull = false := by rw [hm]; rfl
    have hlen : ((earlier ++ off :: rest).length == 0) = false := by
      simp [List.length_eq_zero]
    unfold ProviderConfig.ofData
    simp only [PyVal.isNull, pyGetD_dict, pyBind_ok, dGetD_null, hm,
      pySub_of_dGet hnn, pyLen_list, pyIter_list, hlen,
      Bool.false_eq_true, if_false]
    rw [buildModels_offender earlier off rest [] hval hoff hnull, pyBind_error]
  · intro earlier off rest hval hoff hnull
    have hlen : ((earlier ++ off :: rest).length == 0) = false := by
      simp [List.length_eq_zero]
    unfold LLMConfig.ofData
    simp only [PyVal.isNull, pyLen_list, pyBind_ok, hlen, pyIter_list,
      Bool.false_eq_true, if_false]
    rw [buildProviders_offender earlier off rest [] hval hoff hnull, pyBind_error]

/-- C7 witness: the amended theorem applied at concrete lists. -/
theorem c7_missing_name_fails_fast_witness :
    ProviderConfig.ofData
      (.dict [("name", .str "p"),
              ("models", .list [.dict [("name", .str "m1")], .dict [],
                                .dict [("name", .str "m2")]])]) =
      .error (.exc "model name is missing") ∧
    LLMConfig.ofData
      (.list [.dict [("name", .str "q"),
                     ("models", .list [.dict [("name", .str "mm")]])],
              .dict [("url", .str "u")],
              .str "garbage"]) =
      .error (.exc "provider name is missing") :=
  ⟨c7_missing_name_fails_fast.1
      [("name", .str "p"),
       ("models", .list [.dict [("name", .str "m1")], .dict [],
                         .dict [("name", .str "m2")]])]
      [.dict [("name", .str "m1")], .dict [], .dict [("name", .str "m2")]]
      [.dict [("name", .str "m1")]] (.dict []) [.dict [("name", .str "m2")]]
      rfl rfl
      (by intro m hm; rw [List.mem_singleton] at hm; subst hm; rfl)
      ⟨[], rfl⟩ rfl,
   c7_missing_name_fails_fast.2
      [.dict [("name", .str "q"),
              ("models", .list [.dict [("name", .str "mm")]])]]
      (.dict [("url", .str "u")]) [.str "garbage"]
      (by intro p hp; rw [List.mem_singleton] at hp; subst hp; rfl)
      ⟨[("url", .str "u")], rfl⟩ rfl⟩

/-- C9: whenever the `ols_config` section is present as a mapping (even
empty), the constructed `OLSConfig` carries non-null
`conversation_cache` and `logger_config` objects; consequently, in any
successfully constructed `Config`, those fields can be null only when
the `ols_config` section was absent. -/
theorem c9_ols_section_forces_subobjects :
    (∀ (kvs : List (String × PyVal)) (o : OLSConfig),
      OLSConfig.ofData (.dict kvs) = .ok o →
      o.conversation_cache ≠ Option.none ∧ o.logger_config ≠ Option.none)
    ∧ (∀ (data : PyVal) (cfg : Config) (o : OLSConfig),
      Config.ofData data = .ok cfg → cfg.ols_config = some o →
      (o.conversation_cache = Option.none ∨ o.logger_config = Option.none) →
      ∃ kvs, data = .dict kvs ∧ dGet kvs "ols_config" = .null) := by
  constructor
  · intro kvs o h
    exact olsConfig_ok_shape h
  · intro data cfg o hcfg hols hnone
    cases data with
    | dict kvs =>
      refine ⟨kvs, rfl, ?_⟩
      unfold Config.ofData at hcfg
      simp only [isNull_dict, pyGetD_dict, pyBind_ok, dGetD_null,
        Bool.false_eq_true, if_false] at hcfg
      cases hllm : LLMConfig.ofData (dGet kvs "llm_providers") with
      | error e => rw [hllm, pyBind_error] at hcfg; cases hcfg
      | ok llm =>
        rw [hllm, pyBind_ok] at hcfg
        cases ho : OLSConfig.ofData (dGet kvs "ols_config") with
        | error e => rw [ho, pyBind_error] at hcfg; cases hcfg
        | ok o2 =>
          rw [ho, pyBind_ok] at hcfg
          injection hcfg with hc
          rw [← hc] at hols
          have hsome : some o2 = some o := hols
          injection hsome with ho2
          subst ho2
          rcases olsConfig_ok_form ho with hnul | ⟨okvs, hkv⟩
          · exact hnul
          · rw [hkv] at ho
            have hshape := olsConfig_ok_shape ho
            rcases hnone with h1 | h1
            · exact absurd h1 hshape.1
            · exact absurd h1 hshape.2
    | null =>
      unfold Config.ofData at hcfg
      simp only [PyVal.isNull, if_true] at hcfg
      injection hcfg with hc
      rw [← hc] at hols
      cases hols
    | str s => simp [Config.ofData, PyVal.isNull, pyGetD, pyBind_error] at hcfg
    | int n => simp [Config.ofData, PyVal.isNull, pyGetD, pyBind_error] at hcfg
    | bool b => simp [Config.ofData, PyVal.isNull, pyGetD, pyBind_error] at hcfg
    | list xs => simp [Config.ofData, PyVal.isNull, pyGetD, pyBind_error] at hcfg

/-- C9 witness: the theorem applied at an empty `ols_config` mapping and
at the end-to-end document. -/
theorem c9_ols_section_forces_subobjects_witness :
    ({ enable_debug_ui := .bool false, default_model := .null,
       classifier_model := .null, conversation_cache := some {},
       logger_config := some {} } : OLSConfig).conversation_cache ≠
        Option.none ∧
    ({ enable_debug_ui := .bool false, default_model := .null,
       classifier_model := .null, conversation_cache := some {},
       logger_config := some {} } : OLSConfig).logger_config ≠
        Option.none :=
  c9_ols_section_forces_subobjects.1 []
    { enable_debug_ui := .bool false, default_model := .null,
      classifier_model := .null, conversation_cache := some {},
      logger_config := some {} } rfl

/-! ## Key-set and lookup facts for the loops -/

theorem validModelEntry_hashable {m : PyVal} (h : validModelEntry m = true) :
    (entryName m).hashable = true := by
  obtain ⟨kvs, rfl⟩ := validModelEntry_dict h
  exact (validModelEntry_name h).2

theorem validProviderEntry_hashable {p : PyVal}
    (h : validProviderEntry p = true) : (entryName p).hashable = true := by
  obtain ⟨kvs, rfl⟩ := validProviderEntry_dict h
  exact (validProviderEntry_parts h).2.1

/-- After folding insertions into an empty dict, the key set equals the
set of entry names. -/
theorem coversNames_foldl {β : Type} (f : PyVal → β) (items : List PyVal)
    (hh : ∀ m ∈ items, (entryName m).hashable = true) :
    coversNames (items.foldl (fun a m => dictSet a (entryName m) (f m)) [])
      (items.map entryName) = true := by
  unfold coversNames
  rw [Bool.and_eq_true]
  constructor
  · rw [List.all_eq_true]
    intro n hn
    rw [List.mem_map] at hn
    obtain ⟨p, hp, rfl⟩ := hn
    rw [List.any_eq_true]
    have hkey : entryName p ∈
        (items.foldl (fun a m => dictSet a (entryName m) (f m)) []).map
          Prod.fst :=
      (mem_keys_foldl_dictSet f items [] (entryName p)).mpr
        (Or.inr ⟨p, hp, rfl⟩)
    rw [List.mem_map] at hkey
    obtain ⟨kv, hkv, hfst⟩ := hkey
    refine ⟨kv, hkv, ?_⟩
    rw [hfst]
    exact PyVal.beq_self (hh p hp)
  · rw [List.all_eq_true]
    intro kv hkv
    have hmem : kv.1 ∈
        (items.foldl (fun a m => dictSet a (entryName m) (f m)) []).map
          Prod.fst :=
      List.mem_map_of_mem Prod.fst hkv
    rw [mem_keys_foldl_dictSet] at hmem
    rcases hmem with h0 | ⟨p, hp, hpn⟩
    · simp at h0
    · rw [List.any_eq_true]
      refine ⟨entryName p, List.mem_map_of_mem entryName hp, ?_⟩
      rw [hpn]
      exact PyVal.beq_self (hpn ▸ hh p hp)

/-- C4: on a well-formed document (a non-empty provider list of valid
entries and an `ols_config` section the loader accepts), `load_config`
succeeds with no output and the provider mapping's key set equals the
set of provider names of the document. -/
theorem c4_provider_keys_match_document (fn : String)
    (kvs : List (String × PyVal)) (ps : List PyVal)
    (hps : dGet kvs "llm_providers" = .list ps) (hne : ps ≠ [])
    (hval : ∀ p ∈ ps, validProviderEntry p = true)
    (hols : (OLSConfig.ofData (dGet kvs "ols_config")).isOk = true) :
    ∃ cfg llm, load_config fn (.ok (.dict kvs)) = .ok cfg [] ∧
      cfg.llm_config = some llm ∧
      coversNames llm.providers (ps.map entryName) = true := by
  obtain ⟨o, ho⟩ : ∃ o, OLSConfig.ofData (dGet kvs "ols_config") = .ok o := by
    cases h : OLSConfig.ofData (dGet kvs "ols_config") with
    | ok o => exact ⟨o, rfl⟩
    | error e => rw [h] at hols; simp [Except.isOk, Except.toBool] at hols
  refine ⟨⟨some ⟨foldInsertP ps []⟩, some o⟩, ⟨foldInsertP ps []⟩, ?_, rfl, ?_⟩
  · unfold load_config
    rw [show (Except.ok (PyVal.dict kvs)).bind Config.ofData
      = Config.ofData (.dict kvs) from rfl]
    rw [config_ofData_valid kvs ps hps hne hval ho]
  · exact coversNames_foldl providerOfDict ps
      (fun p hp => validProviderEntry_hashable (hval p hp))

/-- C4 witness: the theorem applied at the end-to-end document. -/
theorem c4_provider_keys_match_document_witness :
    ∃ cfg llm,
      load_config "olsconfig.yaml" (.ok (.dict fullKvs)) = .ok cfg [] ∧
      cfg.llm_config = some llm ∧
      coversNames llm.providers (fullPs.map entryName) = true :=
  c4_provider_keys_match_document "olsconfig.yaml" fullKvs fullPs rfl
    (by simp [fullPs])
    (by intro p hp
        rw [show fullPs = [fullPs.head (by simp [fullPs])] from rfl] at hp
        rw [List.mem_singleton] at hp
        subst hp
        rfl)
    rfl

/-- C8: loading the same well-formed document twice yields the same
configuration value both times; the provider mapping of the (second)
result is a pure function of the document's entries — the folded
insertion of exactly the document's providers — unaffected by any state
left by the first load, and its key set matches the document. -/
theorem c8_load_twice_identical (fn : String)
    (kvs : List (String × PyVal)) (ps : List PyVal)
    (hps : dGet kvs "llm_providers" = .list ps) (hne : ps ≠ [])
    (hval : ∀ p ∈ ps, validProviderEntry p = true)
    (hols : (OLSConfig.ofData (dGet kvs "ols_config")).isOk = true) :
    ∃ cfg llm, load_config fn (.ok (.dict kvs)) = .ok cfg [] ∧
      load_config fn (.ok (.dict kvs)) = .ok cfg [] ∧
      cfg.llm_config = some llm ∧
      llm.providers = foldInsertP ps [] ∧
      coversNames llm.providers (ps.map entryName) = true := by
  obtain ⟨o, ho⟩ : ∃ o, OLSConfig.ofData (dGet kvs "ols_config") = .ok o := by
    cases h : OLSConfig.ofData (dGet kvs "ols_config") with
    | ok o => exact ⟨o, rfl⟩
    | error e => rw [h] at hols; simp [Except.isOk, Except.toBool] at hols
  have hload : load_config fn (.ok (.dict kvs)) =
      .ok ⟨some ⟨foldInsertP ps []⟩, some o⟩ [] := by
    unfold load_config
    rw [show (Except.ok (PyVal.dict kvs)).bind Config.ofData
      = Config.ofData (.dict kvs) from rfl]
    rw [config_ofData_valid kvs ps hps hne hval ho]
  refine ⟨⟨some ⟨foldInsertP ps []⟩, some o⟩, ⟨foldInsertP ps []⟩,
    hload, hload, rfl, rfl, ?_⟩
  exact coversNames_foldl providerOfDict ps
    (fun p hp => validProviderEntry_hashable (hval p hp))

/-- C8 witness: the theorem applied at the end-to-end document. -/
theorem c8_load_twice_identical_witness :
    ∃ cfg llm,
      load_config "olsconfig.yaml" (.ok (.dict fullKvs)) = .ok cfg [] ∧
      load_config "olsconfig.yaml" (.ok (.dict fullKvs)) = .ok cfg [] ∧
      cfg.llm_config = some llm ∧
      llm.providers = foldInsertP fullPs [] ∧
      coversNames llm.providers (fullPs.map entryName) = true :=
  c8_load_twice_identical "olsconfig.yaml" fullKvs fullPs rfl
    (by simp [fullPs])
    (by intro p hp
        rw [show fullPs = [fullPs.head (by simp [fullPs])] from rfl] at hp
        rw [List.mem_singleton] at hp
        subst hp
        rfl)
    rfl

/-- C5: when a models list (or the provider list) contains two entries
with the same name and every entry is otherwise valid, construction
succeeds, the keyed mapping holds exactly one entry for that name, and
it equals the configuration built from the last list entry bearing the
name. -/
theorem c5_duplicate_names_last_wins :
    (∀ (pkvs : List (String × PyVal)) (ms : List PyVal) (n : PyVal),
      dGet pkvs "models" = .list ms →
      (∀ m ∈ ms, validModelEntry m = true) →
      2 ≤ (ms.filter (fun m => entryName m == n)).length →
      ∃ pc mlast v, ProviderConfig.ofData (.dict pkvs) = .ok pc ∧
        ms.reverse.find? (fun m => entryName m == n) = some mlast ∧
        ModelConfig.ofData mlast = .ok v ∧
        aGet? pc.models n = some v ∧
        keyCount pc.models n = 1)
    ∧ (∀ (ps : List PyVal) (n : PyVal),
      (∀ p ∈ ps, validProviderEntry p = true) →
      2 ≤ (ps.filter (fun p => entryName p == n)).length →
      ∃ llm plast v, LLMConfig.ofData (.list ps) = .ok llm ∧
        ps.reverse.find? (fun p => entryName p == n) = some plast ∧
        ProviderConfig.ofData plast = .ok v ∧
        aGet? llm.providers n = some v ∧
        keyCount llm.providers n = 1) := by
  constructor
  · intro pkvs ms n hm hval hdup
    have hne : ms ≠ [] := by
      intro h
      rw [h] at hdup
      simp at hdup
    obtain ⟨m0, hm0, hp0⟩ : ∃ m0 ∈ ms, (entryName m0 == n) = true := by
      cases hfil : ms.filter (fun m => entryName m == n) with
      | nil => rw [hfil] at hdup; simp at hdup
      | cons a t =>
        have ha : a ∈ ms.filter (fun m => entryName m == n) := by
          rw [hfil]
          exact List.mem_cons_self a t
        rw [List.mem_filter] at ha
        exact ⟨a, ha.1, ha.2⟩
    obtain ⟨mlast, hfind⟩ :
        ∃ mlast, ms.reverse.find? (fun m => entryName m == n) = some mlast := by
      cases hf : ms.reverse.find? (fun m => entryName m == n) with
      | some mlast => exact ⟨mlast, rfl⟩
      | none =>
        rw [List.find?_eq_none] at hf
        exact absurd hp0 (hf m0 (List.mem_reverse.mpr hm0))
    have hmem : mlast ∈ ms := List.mem_reverse.mp (List.mem_of_find?_eq_some hfind)
    have hlv := hval mlast hmem
    have hlook : aGet? (foldInsertM ms []) n = some (modelOfDict mlast) := by
      have hgen := aGet?_foldl_dictSet modelOfDict ms [] n
        (fun x hx => validModelEntry_hashable (hval x hx))
      rw [hfind] at hgen
      exact hgen
    have hle : keyCount (foldInsertM ms []) n ≤ 1 :=
      keyCount_foldl_le modelOfDict ms [] n (by simp [keyCount])
    have hge : 1 ≤ keyCount (foldInsertM ms []) n :=
      keyCount_pos_of_aGet? hlook
    refine ⟨_, mlast, modelOfDict mlast,
      providerConfig_ofData_models pkvs ms hm hne hval, hfind, ?_, hlook, ?_⟩
    · obtain ⟨mkvs, hmk⟩ := validModelEntry_dict hlv
      rw [hmk]
      exact modelConfig_ofData_dict mkvs
    · exact (by omega : keyCount (foldInsertM ms []) n = 1)
  · intro ps n hval hdup
    have hne : ps ≠ [] := by
      intro h
      rw [h] at hdup
      simp at hdup
    obtain ⟨p0, hp0m, hp0⟩ : ∃ p0 ∈ ps, (entryName p0 == n) = true := by
      cases hfil : ps.filter (fun p => entryName p == n) with
      | nil => rw [hfil] at hdup; simp at hdup
      | cons a t =>
        have ha : a ∈ ps.filter (fun p => entryName p == n) := by
          rw [hfil]
          exact List.mem_cons_self a t
        rw [List.mem_filter] at ha
        exact ⟨a, ha.1, ha.2⟩
    obtain ⟨plast, hfind⟩ :
        ∃ plast, ps.reverse.find? (fun p => entryName p == n) = some plast := by
      cases hf : ps.reverse.find? (fun p => entryName p == n) with
      | some plast => exact ⟨plast, rfl⟩
      | none =>
        rw [List.find?_eq_none] at hf
        exact absurd hp0 (hf p0 (List.mem_reverse.mpr hp0m))
    have hmem : plast ∈ ps := List.mem_reverse.mp (List.mem_of_find?_eq_some hfind)
    have hlook : aGet? (foldInsertP ps []) n = some (providerOfDict plast) := by
      have hgen := aGet?_foldl_dictSet providerOfDict ps [] n
        (fun x hx => validProviderEntry_hashable (hval x hx))
      rw [hfind] at hgen
      exact hgen
    have hle : keyCount (foldInsertP ps []) n ≤ 1 :=
      keyCount_foldl_le providerOfDict ps [] n (by simp [keyCount])
    have hge : 1 ≤ keyCount (foldInsertP ps []) n :=
      keyCount_pos_of_aGet? hlook
    refine ⟨⟨foldInsertP ps []⟩, plast, providerOfDict plast,
      llmConfig_ofData_valid ps hne hval, hfind,
      providerConfig_ofData_valid (hval plast hmem), hlook, ?_⟩
    exact (by omega : keyCount (foldInsertP ps []) n = 1)

/-- C5 witness: the theorem applied at a provider with two models named
`m` and at a provider list naming `q` twice. -/
theorem c5_duplicate_names_last_wins_witness :
    (∃ pc mlast v, ProviderConfig.ofData (.dict dupPkvs) = .ok pc ∧
      dupModels.reverse.find? (fun m => entryName m == .str "m") = some mlast ∧
      ModelConfig.ofData mlast = .ok v ∧
      aGet? pc.models (.str "m") = some v ∧
      keyCount pc.models (.str "m") = 1) ∧
    ∃ llm plast v, LLMConfig.ofData (.list dupPs) = .ok llm ∧
      dupPs.reverse.find? (fun p => entryName p == .str "q") = some plast ∧
      ProviderConfig.ofData plast = .ok v ∧
      aGet? llm.providers (.str "q") = some v ∧
      keyCount llm.providers (.str "q") = 1 :=
  ⟨c5_duplicate_names_last_wins.1 dupPkvs dupModels (.str "m") rfl
      (by intro m hm
          rcases List.mem_cons.mp hm with rfl | hm2
          · rfl
          · rw [List.mem_singleton] at hm2
            subst hm2
            rfl)
      (by rfl),
   c5_duplicate_names_last_wins.2 dupPs (.str "q")
      (by intro p hp
          rcases List.mem_cons.mp hp with rfl | hp2
          · rfl
          · rw [List.mem_singleton] at hp2
            subst hp2
            rfl)
      (by rfl)⟩

/-- Witness for the exit contract: the theorem applied at the
end-to-end document. -/
theorem c3_load_exit_contract_witness :
    (∃ c, (Except.ok fullDoc).bind Config.ofData = .ok c ∧
      load_config "olsconfig.yaml" (.ok fullDoc) = .ok c []) ∨
    (∃ e, (Except.ok fullDoc).bind Config.ofData = .error e ∧
      load_config "olsconfig.yaml" (.ok fullDoc) =
        .exit 1 ["Failed to load config file " ++ "olsconfig.yaml" ++ ": " ++
                   e.message,
                 tracebackOf e]) :=
  c3_load_exit_contract "olsconfig.yaml" (.ok fullDoc)
